import Mathlib

/-!
Verification of the job tracking and status-reconciliation layer of the
goodflag-poc-deno repository (backend store `SigningStore`, and the HTTP
handlers `handleSign`, `handleGetStatus`, `handleDownload` in
`src/backend/main.ts`).

The embedding is shallow: the in-memory `Map<string, SigningJob>` becomes a
function `String → Option SigningJob`; `Date.now()` timestamps become explicit
`Int` parameters; `crypto.randomUUID()` becomes an explicit id parameter;
`Uint8Array` buffers become `List Nat`.  JavaScript `??` (nullish coalescing)
is `Option.getD`; JavaScript `||` on strings and string truthiness tests treat
exactly the empty string as falsy, which is modelled explicitly.
-/

/-- The `SigningJobStatus` union type `"pending" | "completed" | "error"`. -/
inductive SigningJobStatus where
  | pending
  | completed
  | error
deriving Repr, DecidableEq

/-- The `SigningJob` interface from the store module. -/
structure SigningJob where
  id : String
  fileName : String
  fileType : String
  status : SigningJobStatus
  createdAt : Int
  updatedAt : Int
  workflowId : Option String
  workflowStatus : Option String
  signedDocument : Option (List Nat)
  signedFileName : Option String
  signedContentType : Option String
  errorMessage : Option String
deriving Repr, DecidableEq

/-- The store's job map `Map<string, SigningJob>`, as a lookup function. -/
def Store : Type := String → Option SigningJob

/-- The store with no jobs (initial state of `#jobs`). -/
def emptyStore : Store := fun _ => none

/-- `Map.set` on the job map. -/
def updateJob (s : Store) (id : String) (j : SigningJob) : Store :=
  fun k => if k = id then some j else s k

/-- `Map.get` / `SigningStore.getJob`. -/
def getJob (s : Store) (id : String) : Option SigningJob := s id

/-- JavaScript `lastIndexOf` of a character in a string, over the char list. -/
def lastIndexOfCh (c : Char) : List Char → Option Nat
  | [] => none
  | x :: xs =>
    match lastIndexOfCh c xs with
    | some i => some (i + 1)
    | none => if x = c then some 0 else none

/-- `SigningStore.#defaultSignedName`: insert `-signed` before the last-dot
extension of the original name; with no dot, append `-signed.pdf`. -/
def defaultSignedName (original : String) : String :=
  match lastIndexOfCh '.' original.data with
  | none => original ++ "-signed.pdf"
  | some dotIdx =>
    String.mk (original.data.take dotIdx) ++ "-signed" ++
      String.mk (original.data.drop dotIdx)

/-- `SigningStore.createJob`: fresh id and timestamp are explicit inputs. -/
def createJob (s : Store) (id fileName fileType : String) (now : Int) : Store :=
  updateJob s id
    { id := id
      fileName := fileName
      fileType := fileType
      status := SigningJobStatus.pending
      createdAt := now
      updatedAt := now
      workflowId := none
      workflowStatus := none
      signedDocument := none
      signedFileName := none
      signedContentType := none
      errorMessage := none }

/-- `SigningStore.setWorkflow` (no-op on unknown id; the optional
`workflowStatus` argument is assigned as-is, clearing the field when absent). -/
def setWorkflow (s : Store) (id workflowId : String)
    (workflowStatus : Option String) (now : Int) : Store :=
  match s id with
  | none => s
  | some job =>
    updateJob s id
      { job with
          workflowId := some workflowId
          workflowStatus := workflowStatus
          updatedAt := now }

/-- `SigningStore.setWorkflowStatus` (no-op on unknown id). -/
def setWorkflowStatus (s : Store) (id workflowStatus : String) (now : Int) :
    Store :=
  match s id with
  | none => s
  | some job =>
    updateJob s id
      { job with workflowStatus := some workflowStatus, updatedAt := now }

/-- The payload of `SigningStore.completeJob`:
`{ bytes: Uint8Array; fileName?: string; contentType?: string }`. -/
structure CompletePayload where
  bytes : List Nat
  fileName : Option String
  contentType : Option String
deriving Repr, DecidableEq

/-- `SigningStore.completeJob` (no-op on unknown id).  Note it overwrites
`status` unconditionally and does not clear `errorMessage`. -/
def completeJob (s : Store) (id : String) (p : CompletePayload) (now : Int) :
    Store :=
  match s id with
  | none => s
  | some job =>
    updateJob s id
      { job with
          status := SigningJobStatus.completed
          updatedAt := now
          signedDocument := some p.bytes
          signedFileName := some (p.fileName.getD (defaultSignedName job.fileName))
          signedContentType := some (p.contentType.getD job.fileType) }

/-- `SigningStore.failJob` (no-op on unknown id).  Note it overwrites `status`
unconditionally and does not clear `signedDocument`. -/
def failJob (s : Store) (id errorMessage : String) (now : Int) : Store :=
  match s id with
  | none => s
  | some job =>
    updateJob s id
      { job with
          status := SigningJobStatus.error
          updatedAt := now
          errorMessage := some errorMessage }

/-- `SigningStore.#evictExpired`: delete every job with `now - updatedAt`
strictly above the ttl. -/
def evictExpired (s : Store) (now ttl : Int) : Store :=
  fun id =>
    match s id with
    | none => none
    | some job => if now - job.updatedAt > ttl then none else some job

theorem updateJob_self (s : Store) (id : String) (j : SigningJob) :
    updateJob s id j id = some j := by
  simp [updateJob]

theorem updateJob_other (s : Store) (id k : String) (j : SigningJob)
    (h : k ≠ id) : updateJob s id j k = s k := by
  simp [updateJob, h]

theorem lastIndexOfCh_eq_none (c : Char) (l : List Char) (h : c ∉ l) :
    lastIndexOfCh c l = none := by
  induction l with
  | nil => rfl
  | cons x xs ih =>
    simp only [List.mem_cons, not_or] at h
    simp [lastIndexOfCh, ih h.2, Ne.symm h.1]

theorem lastIndexOfCh_append (c : Char) (a b : List Char) (h : c ∉ b) :
    lastIndexOfCh c (a ++ c :: b) = some a.length := by
  induction a with
  | nil => simp [lastIndexOfCh, lastIndexOfCh_eq_none c b h]
  | cons x xs ih => simp [lastIndexOfCh, ih]

/-- C5: `completeJob`'s derived signed filename inserts `-signed` before the
last-dot extension of the original name; a name with no extension (no dot at
all) gets `-signed.pdf` appended; `report.pdf ↦ report-signed.pdf` and
`README ↦ README-signed.pdf`. -/
theorem claimC5 :
    (∀ s : String, '.' ∉ s.data → defaultSignedName s = s ++ "-signed.pdf") ∧
    (∀ a b : List Char, '.' ∉ b →
      defaultSignedName (String.mk (a ++ '.' :: b)) =
        String.mk a ++ "-signed." ++ String.mk b) ∧
    defaultSignedName "report.pdf" = "report-signed.pdf" ∧
    defaultSignedName "README" = "README-signed.pdf" := by
  refine ⟨?_, ?_, by decide, by decide⟩
  · intro s h
    simp [defaultSignedName, lastIndexOfCh_eq_none '.' s.data h]
  · intro a b h
    have hidx : lastIndexOfCh '.' (String.mk (a ++ '.' :: b)).data = some a.length :=
      lastIndexOfCh_append '.' a b h
    simp only [defaultSignedName, hidx]
    apply String.ext
    simp [String.data_append, List.take_left, List.drop_left]

/-- Witness for C5: instantiates both hypothetical parts, at `README` (no
extension) and at `report` `.` `pdf` (one extension). -/
theorem claimC5_witness :
    ('.' ∉ ("README" : String).data ∧
      defaultSignedName "README" = "README" ++ "-signed.pdf") ∧
    ('.' ∉ ("pdf" : String).data ∧
      defaultSignedName (String.mk (("report" : String).data ++ '.' :: ("pdf" : String).data)) =
        String.mk ("report" : String).data ++ "-signed." ++ String.mk ("pdf" : String).data) := by
  refine ⟨⟨by decide, claimC5.1 "README" (by decide)⟩,
    ⟨by decide, claimC5.2.1 ("report" : String).data ("pdf" : String).data (by decide)⟩⟩

/-- C6: after an eviction sweep at time `now`, a job whose idle time
`now - updatedAt` strictly exceeds the ttl is absent, and a job whose idle
time is within the ttl is still present with its record unchanged. -/
theorem claimC6 :
    ∀ (s : Store) (now ttl : Int) (id : String) (j : SigningJob),
      s id = some j →
      (now - j.updatedAt > ttl → evictExpired s now ttl id = none) ∧
      (now - j.updatedAt ≤ ttl → evictExpired s now ttl id = some j) := by
  intro s now ttl id j h
  constructor
  · intro hgt
    simp [evictExpired, h, hgt]
  · intro hle
    simp [evictExpired, h]
    omega

/-- Store used by the C6 witness: job `a` idle for 99 ticks, job `b` idle
for 10 ticks. -/
def c6JobA : SigningJob :=
  { id := "a", fileName := "a.pdf", fileType := "application/pdf",
    status := SigningJobStatus.pending, createdAt := 1, updatedAt := 1,
    workflowId := none, workflowStatus := none, signedDocument := none,
    signedFileName := none, signedContentType := none, errorMessage := none }

/-- Second job of the C6 witness store. -/
def c6JobB : SigningJob :=
  { id := "b", fileName := "b.pdf", fileType := "application/pdf",
    status := SigningJobStatus.pending, createdAt := 90, updatedAt := 90,
    workflowId := none, workflowStatus := none, signedDocument := none,
    signedFileName := none, signedContentType := none, errorMessage := none }

/-- The two-job store swept in the C6 witness. -/
def c6Store : Store := updateJob (updateJob emptyStore "a" c6JobA) "b" c6JobB

/-- Witness for C6: sweeping at time `100` with ttl `10` evicts the job idle
for `99` and keeps the job idle for `10` unchanged. -/
theorem claimC6_witness :
    evictExpired c6Store 100 10 "a" = none ∧
    evictExpired c6Store 100 10 "b" = some c6JobB := by
  constructor
  · exact (claimC6 c6Store 100 10 "a" c6JobA (by decide)).1 (by decide)
  · exact (claimC6 c6Store 100 10 "b" c6JobB (by decide)).2 (by decide)

/-- C7: every store mutation called with a job id not present in the store
leaves the entire store unchanged (raising nothing), and `getJob` on such an
id returns absent. -/
theorem claimC7 :
    ∀ (s : Store) (id : String), s id = none →
      (∀ wid ws now, setWorkflow s id wid ws now = s) ∧
      (∀ ws now, setWorkflowStatus s id ws now = s) ∧
      (∀ p now, completeJob s id p now = s) ∧
      (∀ msg now, failJob s id msg now = s) ∧
      getJob s id = none := by
  intro s id h
  refine ⟨?_, ?_, ?_, ?_, h⟩
  · intro wid ws now
    simp [setWorkflow, h]
  · intro ws now
    simp [setWorkflowStatus, h]
  · intro p now
    simp [completeJob, h]
  · intro msg now
    simp [failJob, h]

/-- Witness for C7: every mutation applied to the empty store with id `x` is
the empty store again, and `getJob` returns absent. -/
theorem claimC7_witness :
    setWorkflow emptyStore "x" "wf" none 5 = emptyStore ∧
    setWorkflowStatus emptyStore "x" "started" 5 = emptyStore ∧
    completeJob emptyStore "x" { bytes := [1], fileName := none, contentType := none } 5 = emptyStore ∧
    failJob emptyStore "x" "boom" 5 = emptyStore ∧
    getJob emptyStore "x" = none := by
  have h := claimC7 emptyStore "x" rfl
  exact ⟨h.1 "wf" none 5, h.2.1 "started" 5,
    h.2.2.1 { bytes := [1], fileName := none, contentType := none } 5,
    h.2.2.2.1 "boom" 5, h.2.2.2.2⟩

/-- Sequences of store calls: the five public mutators together with the
eviction timer tick, each carrying its explicit ids/timestamps. -/
inductive StoreOp where
  | create (id fileName fileType : String) (now : Int)
  | setWf (id workflowId : String) (workflowStatus : Option String) (now : Int)
  | setWfStatus (id workflowStatus : String) (now : Int)
  | complete (id : String) (p : CompletePayload) (now : Int)
  | fail (id errorMessage : String) (now : Int)
  | evict (now ttl : Int)
deriving Repr, DecidableEq

/-- Dispatch one store call. -/
def applyOp (s : Store) : StoreOp → Store
  | StoreOp.create id fn ft now => createJob s id fn ft now
  | StoreOp.setWf id wid ws now => setWorkflow s id wid ws now
  | StoreOp.setWfStatus id ws now => setWorkflowStatus s id ws now
  | StoreOp.complete id p now => completeJob s id p now
  | StoreOp.fail id msg now => failJob s id msg now
  | StoreOp.evict now ttl => evictExpired s now ttl

/-- Run a sequence of store calls left to right. -/
def applyOps (s : Store) : List StoreOp → Store
  | [] => s
  | op :: ops => applyOps (applyOp s op) ops

/-- The call discipline the HTTP handlers follow: `completeJob` and `failJob`
are invoked only on jobs that are still pending (or on absent ids). -/
def opTargetsPendingOnly (s : Store) : StoreOp → Bool
  | StoreOp.complete id _ _ =>
    match s id with
    | some j => decide (j.status = SigningJobStatus.pending)
    | none => true
  | StoreOp.fail id _ _ =>
    match s id with
    | some j => decide (j.status = SigningJobStatus.pending)
    | none => true
  | _ => true

/-- A whole call sequence follows the pending-only discipline. -/
def opsGuarded (s : Store) : List StoreOp → Bool
  | [] => true
  | op :: ops => opTargetsPendingOnly s op && opsGuarded (applyOp s op) ops

/-- The four mutation calls named by the claim (not `createJob`, not the
eviction tick). -/
def isMutationOp : StoreOp → Bool
  | StoreOp.setWf _ _ _ _ => true
  | StoreOp.setWfStatus _ _ _ => true
  | StoreOp.complete _ _ _ => true
  | StoreOp.fail _ _ _ => true
  | _ => false

theorem setWorkflow_self (s : Store) (id wid : String) (ws : Option String)
    (now : Int) (j : SigningJob) (h : s id = some j) :
    setWorkflow s id wid ws now id =
      some { j with workflowId := some wid, workflowStatus := ws, updatedAt := now } := by
  unfold setWorkflow
  rw [h]
  exact updateJob_self ..

theorem setWorkflow_ne (s : Store) (id k wid : String) (ws : Option String)
    (now : Int) (hk : k ≠ id) : setWorkflow s id wid ws now k = s k := by
  unfold setWorkflow
  cases s id with
  | none => rfl
  | some job => exact updateJob_other s id k _ hk

theorem setWorkflowStatus_self (s : Store) (id ws : String) (now : Int)
    (j : SigningJob) (h : s id = some j) :
    setWorkflowStatus s id ws now id =
      some { j with workflowStatus := some ws, updatedAt := now } := by
  unfold setWorkflowStatus
  rw [h]
  exact updateJob_self ..

theorem setWorkflowStatus_ne (s : Store) (id k ws : String) (now : Int)
    (hk : k ≠ id) : setWorkflowStatus s id ws now k = s k := by
  unfold setWorkflowStatus
  cases s id with
  | none => rfl
  | some job => exact updateJob_other s id k _ hk

theorem completeJob_self (s : Store) (id : String) (p : CompletePayload)
    (now : Int) (j : SigningJob) (h : s id = some j) :
    completeJob s id p now id =
      some { j with
              status := SigningJobStatus.completed
              updatedAt := now
              signedDocument := some p.bytes
              signedFileName := some (p.fileName.getD (defaultSignedName j.fileName))
              signedContentType := some (p.contentType.getD j.fileType) } := by
  unfold completeJob
  rw [h]
  exact updateJob_self ..

theorem completeJob_ne (s : Store) (id k : String) (p : CompletePayload)
    (now : Int) (hk : k ≠ id) : completeJob s id p now k = s k := by
  unfold completeJob
  cases s id with
  | none => rfl
  | some job => exact updateJob_other s id k _ hk

theorem failJob_self (s : Store) (id msg : String) (now : Int)
    (j : SigningJob) (h : s id = some j) :
    failJob s id msg now id =
      some { j with
              status := SigningJobStatus.error
              updatedAt := now
              errorMessage := some msg } := by
  unfold failJob
  rw [h]
  exact updateJob_self ..

theorem failJob_ne (s : Store) (id k msg : String) (now : Int)
    (hk : k ≠ id) : failJob s id msg now k = s k := by
  unfold failJob
  cases s id with
  | none => rfl
  | some job => exact updateJob_other s id k _ hk

theorem createJob_ne (s : Store) (id k fn ft : String) (now : Int)
    (hk : k ≠ id) : createJob s id fn ft now k = s k := by
  unfold createJob
  exact updateJob_other s id k _ hk

theorem evictExpired_lookup (s : Store) (now ttl : Int) (k : String)
    (j : SigningJob) (h : evictExpired s now ttl k = some j) : s k = some j := by
  unfold evictExpired at h
  cases hs : s k with
  | none =>
    rw [hs] at h
    exact Option.noConfusion (show (none : Option SigningJob) = some j from h)
  | some j0 =>
    rw [hs] at h
    have h2 : (if now - j0.updatedAt > ttl then none else some j0) = some j := h
    by_cases hgt : now - j0.updatedAt > ttl
    · rw [if_pos hgt] at h2
      exact Option.noConfusion h2
    · rw [if_neg hgt] at h2
      exact h2

theorem applyOp_status_stable (s : Store) (op : StoreOp) (id : String)
    (j : SigningJob) (h : s id = some j)
    (hterm : j.status ≠ SigningJobStatus.pending)
    (hmut : isMutationOp op = true)
    (hg : opTargetsPendingOnly s op = true) :
    ∃ j', applyOp s op id = some j' ∧ j'.status = j.status := by
  cases op with
  | create id' fn ft now => simp [isMutationOp] at hmut
  | evict now ttl => simp [isMutationOp] at hmut
  | setWf id' wid ws now =>
    by_cases hk : id = id'
    · subst hk
      exact ⟨_, setWorkflow_self s id wid ws now j h, rfl⟩
    · exact ⟨j, (setWorkflow_ne s id' id wid ws now hk).trans h, rfl⟩
  | setWfStatus id' ws now =>
    by_cases hk : id = id'
    · subst hk
      exact ⟨_, setWorkflowStatus_self s id ws now j h, rfl⟩
    · exact ⟨j, (setWorkflowStatus_ne s id' id ws now hk).trans h, rfl⟩
  | complete id' p now =>
    by_cases hk : id = id'
    · subst hk
      rw [opTargetsPendingOnly, h] at hg
      exact absurd (of_decide_eq_true hg) hterm
    · exact ⟨j, (completeJob_ne s id' id p now hk).trans h, rfl⟩
  | fail id' msg now =>
    by_cases hk : id = id'
    · subst hk
      rw [opTargetsPendingOnly, h] at hg
      exact absurd (of_decide_eq_true hg) hterm
    · exact ⟨j, (failJob_ne s id' id msg now hk).trans h, rfl⟩

/-- Shared counterexample trace for C1/C2: create a job, fail it, then call
`completeJob` on the already-errored job. -/
def cexStore0 : Store := createJob emptyStore "a" "doc.pdf" "application/pdf" 0

/-- The store after `failJob` on the fresh job. -/
def cexStore1 : Store := failJob cexStore0 "a" "boom" 1

/-- The store after `completeJob` on the errored job. -/
def cexStore2 : Store :=
  completeJob cexStore1 "a" { bytes := [1, 2, 3], fileName := none, contentType := none } 2

/-- Counterexample to C1 as stated: after `failJob` the job's status is
`error`, yet the subsequent `completeJob` call with the same id changes the
status to `completed` — a store mutation call moved a terminal job from
`error` to `completed`. -/
theorem claimC1_counterexample :
    (getJob cexStore1 "a").map SigningJob.status = some SigningJobStatus.error ∧
    (getJob cexStore2 "a").map SigningJob.status = some SigningJobStatus.completed ∧
    SigningJobStatus.error ≠ SigningJobStatus.completed := by
  refine ⟨by decide, by decide, by decide⟩

/-- C1 as amended: `setWorkflow` and `setWorkflowStatus` never change a
status, and under the call discipline the handlers follow — `completeJob`
and `failJob` are invoked only on still-pending jobs — a job whose status is
`completed` or `error` keeps that status across any further sequence of the
four mutation calls.  (The unguarded store itself will overwrite a terminal
status, as `claimC1_counterexample` shows.) -/
theorem claimC1 :
    ∀ (ops : List StoreOp) (s : Store) (id : String) (j : SigningJob),
      s id = some j →
      (j.status = SigningJobStatus.completed ∨ j.status = SigningJobStatus.error) →
      (∀ op ∈ ops, isMutationOp op = true) →
      opsGuarded s ops = true →
      ∃ j', applyOps s ops id = some j' ∧ j'.status = j.status := by
  intro ops
  induction ops with
  | nil => exact fun s id j h _ _ _ => ⟨j, h, rfl⟩
  | cons op ops ih =>
    intro s id j h hterm hmut hg
    rw [opsGuarded, Bool.and_eq_true] at hg
    have hterm' : j.status ≠ SigningJobStatus.pending := by
      rcases hterm with h1 | h1 <;> simp [h1]
    obtain ⟨j1, hj1, hst1⟩ :=
      applyOp_status_stable s op id j h hterm' (hmut op (List.mem_cons_self op ops)) hg.1
    have hterm1 : j1.status = SigningJobStatus.completed ∨ j1.status = SigningJobStatus.error := by
      rw [hst1]; exact hterm
    obtain ⟨j2, hj2, hst2⟩ :=
      ih (applyOp s op) id j1 hj1 hterm1 (fun o ho => hmut o (List.mem_cons_of_mem op ho)) hg.2
    exact ⟨j2, hj2, hst2.trans hst1⟩

/-- The record held by `cexStore2` at id `a`, used by the C1 witness. -/
def c1wJob : SigningJob :=
  { id := "a", fileName := "doc.pdf", fileType := "application/pdf",
    status := SigningJobStatus.completed, createdAt := 0, updatedAt := 2,
    workflowId := none, workflowStatus := none,
    signedDocument := some [1, 2, 3],
    signedFileName := some "doc-signed.pdf",
    signedContentType := some "application/pdf",
    errorMessage := some "boom" }

/-- Witness for C1: a completed job keeps status `completed` across a guarded
mutation sequence (`setWorkflowStatus` on it, `failJob` on another id). -/
theorem claimC1_witness :
    (applyOps cexStore2
        [StoreOp.setWfStatus "a" "finished" 5, StoreOp.fail "b" "x" 6] "a").map
      SigningJob.status = some SigningJobStatus.completed := by
  obtain ⟨j2, hj2, hst⟩ := claimC1
    [StoreOp.setWfStatus "a" "finished" 5, StoreOp.fail "b" "x" 6]
    cexStore2 "a" c1wJob (by decide) (Or.inl rfl) (by decide) (by decide)
  rw [hj2]
  exact congrArg some hst

theorem setWorkflow_absent (s : Store) (id wid : String) (ws : Option String)
    (now : Int) (h : s id = none) : setWorkflow s id wid ws now = s := by
  unfold setWorkflow
  rw [h]

theorem setWorkflowStatus_absent (s : Store) (id ws : String) (now : Int)
    (h : s id = none) : setWorkflowStatus s id ws now = s := by
  unfold setWorkflowStatus
  rw [h]

theorem completeJob_absent (s : Store) (id : String) (p : CompletePayload)
    (now : Int) (h : s id = none) : completeJob s id p now = s := by
  unfold completeJob
  rw [h]

theorem failJob_absent (s : Store) (id msg : String) (now : Int)
    (h : s id = none) : failJob s id msg now = s := by
  unfold failJob
  rw [h]

theorem createJob_self (s : Store) (id fn ft : String) (now : Int) :
    createJob s id fn ft now id =
      some { id := id, fileName := fn, fileType := ft,
             status := SigningJobStatus.pending, createdAt := now,
             updatedAt := now, workflowId := none, workflowStatus := none,
             signedDocument := none, signedFileName := none,
             signedContentType := none, errorMessage := none } := by
  unfold createJob
  exact updateJob_self ..

/-- The field-level invariant of C2: the signed artifact is present iff the
job is completed, and the error message is present iff the job is errored. -/
def JobInv (j : SigningJob) : Prop :=
  (j.status = SigningJobStatus.completed ↔ j.signedDocument.isSome = true) ∧
  (j.status = SigningJobStatus.error ↔ j.errorMessage.isSome = true)

theorem jobInv_applyOp (s : Store) (op : StoreOp)
    (hinv : ∀ id j, s id = some j → JobInv j)
    (hg : opTargetsPendingOnly s op = true) :
    ∀ id j, applyOp s op id = some j → JobInv j := by
  intro id j hj
  cases op with
  | create id' fn ft now =>
    by_cases hk : id = id'
    · subst hk
      rw [show applyOp s (StoreOp.create id fn ft now) id =
            createJob s id fn ft now id from rfl, createJob_self] at hj
      cases hj
      simp [JobInv]
    · rw [show applyOp s (StoreOp.create id' fn ft now) id =
            createJob s id' fn ft now id from rfl,
          createJob_ne s id' id fn ft now hk] at hj
      exact hinv id j hj
  | setWf id' wid ws now =>
    by_cases hk : id = id'
    · subst hk
      cases hs : s id with
      | none =>
        rw [show applyOp s (StoreOp.setWf id wid ws now) =
              setWorkflow s id wid ws now from rfl,
            setWorkflow_absent s id wid ws now hs] at hj
        exact hinv id j hj
      | some job0 =>
        rw [show applyOp s (StoreOp.setWf id wid ws now) id =
              setWorkflow s id wid ws now id from rfl,
            setWorkflow_self s id wid ws now job0 hs] at hj
        cases hj
        exact hinv id job0 hs
    · rw [show applyOp s (StoreOp.setWf id' wid ws now) id =
            setWorkflow s id' wid ws now id from rfl,
          setWorkflow_ne s id' id wid ws now hk] at hj
      exact hinv id j hj
  | setWfStatus id' ws now =>
    by_cases hk : id = id'
    · subst hk
      cases hs : s id with
      | none =>
        rw [show applyOp s (StoreOp.setWfStatus id ws now) =
              setWorkflowStatus s id ws now from rfl,
            setWorkflowStatus_absent s id ws now hs] at hj
        exact hinv id j hj
      | some job0 =>
        rw [show applyOp s (StoreOp.setWfStatus id ws now) id =
              setWorkflowStatus s id ws now id from rfl,
            setWorkflowStatus_self s id ws now job0 hs] at hj
        cases hj
        exact hinv id job0 hs
    · rw [show applyOp s (StoreOp.setWfStatus id' ws now) id =
            setWorkflowStatus s id' ws now id from rfl,
          setWorkflowStatus_ne s id' id ws now hk] at hj
      exact hinv id j hj
  | complete id' p now =>
    by_cases hk : id = id'
    · subst hk
      cases hs : s id with
      | none =>
        rw [show applyOp s (StoreOp.complete id p now) =
              completeJob s id p now from rfl,
            completeJob_absent s id p now hs] at hj
        exact hinv id j hj
      | some job0 =>
        rw [show applyOp s (StoreOp.complete id p now) id =
              completeJob s id p now id from rfl,
            completeJob_self s id p now job0 hs] at hj
        cases hj
        rw [opTargetsPendingOnly, hs] at hg
        have hp : job0.status = SigningJobStatus.pending := of_decide_eq_true hg
        have h0 := hinv id job0 hs
        have hmsg : job0.errorMessage.isSome = false := by
          cases hmm : job0.errorMessage.isSome with
          | false => rfl
          | true =>
            have := h0.2.mpr hmm
            rw [hp] at this
            exact SigningJobStatus.noConfusion this
        simp [JobInv, hmsg]
    · rw [show applyOp s (StoreOp.complete id' p now) id =
            completeJob s id' p now id from rfl,
          completeJob_ne s id' id p now hk] at hj
      exact hinv id j hj
  | fail id' msg now =>
    by_cases hk : id = id'
    · subst hk
      cases hs : s id with
      | none =>
        rw [show applyOp s (StoreOp.fail id msg now) =
              failJob s id msg now from rfl,
            failJob_absent s id msg now hs] at hj
        exact hinv id j hj
      | some job0 =>
        rw [show applyOp s (StoreOp.fail id msg now) id =
              failJob s id msg now id from rfl,
            failJob_self s id msg now job0 hs] at hj
        cases hj
        rw [opTargetsPendingOnly, hs] at hg
        have hp : job0.status = SigningJobStatus.pending := of_decide_eq_true hg
        have h0 := hinv id job0 hs
        have hdoc : job0.signedDocument.isSome = false := by
          cases hmm : job0.signedDocument.isSome with
          | false => rfl
          | true =>
            have := h0.1.mpr hmm
            rw [hp] at this
            exact SigningJobStatus.noConfusion this
        simp [JobInv, hdoc]
    · rw [show applyOp s (StoreOp.fail id' msg now) id =
            failJob s id' msg now id from rfl,
          failJob_ne s id' id msg now hk] at hj
      exact hinv id j hj
  | evict now ttl =>
    exact hinv id j (evictExpired_lookup s now ttl id j hj)

/-- The stores reachable from the empty store by call sequences following the
pending-only discipline on `completeJob`/`failJob`. -/
inductive ReachableGuarded : Store → Prop where
  | init : ReachableGuarded emptyStore
  | step (s : Store) (op : StoreOp) (hs : ReachableGuarded s)
      (hg : opTargetsPendingOnly s op = true) : ReachableGuarded (applyOp s op)

/-- Counterexample to C2 as stated: the store-operation sequence create →
`failJob` → `completeJob` yields a job whose status is `completed` while its
stale `errorMessage` is still present (and both artifact fields are present at
once), contradicting the claimed iff and the "never both" part. -/
theorem claimC2_counterexample :
    (getJob cexStore2 "a").map SigningJob.status = some SigningJobStatus.completed ∧
    (getJob cexStore2 "a").map SigningJob.errorMessage = some (some "boom") ∧
    (getJob cexStore2 "a").map SigningJob.signedDocument = some (some [1, 2, 3]) := by
  refine ⟨by decide, by decide, by decide⟩

/-- C2 as amended: for every job in a store reachable under the handlers'
pending-only discipline for `completeJob`/`failJob`, `signedDocument` is
present iff `status = completed`, `errorMessage` is present iff
`status = error`, never both are present, and outside `pending` at least one
is.  (Unrestricted operation sequences violate this, as
`claimC2_counterexample` shows.) -/
theorem claimC2 :
    ∀ s : Store, ReachableGuarded s → ∀ id j, s id = some j →
      ((j.status = SigningJobStatus.completed ↔ j.signedDocument.isSome = true) ∧
       (j.status = SigningJobStatus.error ↔ j.errorMessage.isSome = true)) ∧
      ¬(j.signedDocument.isSome = true ∧ j.errorMessage.isSome = true) ∧
      (j.status ≠ SigningJobStatus.pending →
        j.signedDocument.isSome = true ∨ j.errorMessage.isSome = true) := by
  have main : ∀ s : Store, ReachableGuarded s → ∀ id j, s id = some j → JobInv j := by
    intro s hreach
    induction hreach with
    | init => intro id j h; exact Option.noConfusion h
    | step s op hs hg ih => exact jobInv_applyOp s op ih hg
  intro s hreach id j h
  have hinv := main s hreach id j h
  refine ⟨hinv, ?_, ?_⟩
  · rintro ⟨hd, he⟩
    have h1 := hinv.1.mpr hd
    have h2 := hinv.2.mpr he
    rw [h1] at h2
    exact SigningJobStatus.noConfusion h2
  · intro hnp
    cases hst : j.status with
    | pending => exact absurd hst hnp
    | completed => exact Or.inl (hinv.1.mp hst)
    | error => exact Or.inr (hinv.2.mp hst)

/-- Single-job store of the C2 witness. -/
def c2wStore : Store := applyOp emptyStore (StoreOp.create "a" "f.pdf" "application/pdf" 0)

/-- The job held by `c2wStore`. -/
def c2wJob : SigningJob :=
  { id := "a", fileName := "f.pdf", fileType := "application/pdf",
    status := SigningJobStatus.pending, createdAt := 0, updatedAt := 0,
    workflowId := none, workflowStatus := none, signedDocument := none,
    signedFileName := none, signedContentType := none, errorMessage := none }

/-- Witness for C2: the invariant instantiated on a freshly created job in a
guarded-reachable store. -/
theorem claimC2_witness :
    ((c2wJob.status = SigningJobStatus.completed ↔ c2wJob.signedDocument.isSome = true) ∧
     (c2wJob.status = SigningJobStatus.error ↔ c2wJob.errorMessage.isSome = true)) ∧
    ¬(c2wJob.signedDocument.isSome = true ∧ c2wJob.errorMessage.isSome = true) ∧
    (c2wJob.status ≠ SigningJobStatus.pending →
      c2wJob.signedDocument.isSome = true ∨ c2wJob.errorMessage.isSome = true) :=
  claimC2 c2wStore
    (ReachableGuarded.step emptyStore (StoreOp.create "a" "f.pdf" "application/pdf" 0)
      ReachableGuarded.init (by decide))
    "a" c2wJob (by decide)

/-- The operations able to write the `workflowId` field of the job with the
given id: `setWorkflow` on that id, and `createJob` reusing that id. -/
def opChangesWfId (id : String) : StoreOp → Bool
  | StoreOp.setWf id' _ _ _ => id' == id
  | StoreOp.create id' _ _ _ => id' == id
  | _ => false

theorem applyOp_wfId_preserved (s : Store) (op : StoreOp) (id : String)
    (hop : opChangesWfId id op = false) :
    ∀ j', applyOp s op id = some j' →
      ∃ j0, s id = some j0 ∧ j'.workflowId = j0.workflowId := by
  intro j' hj
  cases op with
  | create id' fn ft now =>
    have hk : id ≠ id' := fun h => by
      rw [opChangesWfId, h, beq_self_eq_true] at hop
      exact Bool.noConfusion hop
    rw [show applyOp s (StoreOp.create id' fn ft now) id =
          createJob s id' fn ft now id from rfl,
        createJob_ne s id' id fn ft now hk] at hj
    exact ⟨j', hj, rfl⟩
  | setWf id' wid ws now =>
    have hk : id ≠ id' := fun h => by
      rw [opChangesWfId, h, beq_self_eq_true] at hop
      exact Bool.noConfusion hop
    rw [show applyOp s (StoreOp.setWf id' wid ws now) id =
          setWorkflow s id' wid ws now id from rfl,
        setWorkflow_ne s id' id wid ws now hk] at hj
    exact ⟨j', hj, rfl⟩
  | setWfStatus id' ws now =>
    by_cases hk : id = id'
    · subst hk
      cases hs : s id with
      | none =>
        rw [show applyOp s (StoreOp.setWfStatus id ws now) =
              setWorkflowStatus s id ws now from rfl,
            setWorkflowStatus_absent s id ws now hs, hs] at hj
        exact Option.noConfusion hj
      | some job0 =>
        rw [show applyOp s (StoreOp.setWfStatus id ws now) id =
              setWorkflowStatus s id ws now id from rfl,
            setWorkflowStatus_self s id ws now job0 hs] at hj
        cases hj
        exact ⟨job0, rfl, rfl⟩
    · rw [show applyOp s (StoreOp.setWfStatus id' ws now) id =
            setWorkflowStatus s id' ws now id from rfl,
          setWorkflowStatus_ne s id' id ws now hk] at hj
      exact ⟨j', hj, rfl⟩
  | complete id' p now =>
    by_cases hk : id = id'
    · subst hk
      cases hs : s id with
      | none =>
        rw [show applyOp s (StoreOp.complete id p now) =
              completeJob s id p now from rfl,
            completeJob_absent s id p now hs, hs] at hj
        exact Option.noConfusion hj
      | some job0 =>
        rw [show applyOp s (StoreOp.complete id p now) id =
              completeJob s id p now id from rfl,
            completeJob_self s id p now job0 hs] at hj
        cases hj
        exact ⟨job0, rfl, rfl⟩
    · rw [show applyOp s (StoreOp.complete id' p now) id =
            completeJob s id' p now id from rfl,
          completeJob_ne s id' id p now hk] at hj
      exact ⟨j', hj, rfl⟩
  | fail id' msg now =>
    by_cases hk : id = id'
    · subst hk
      cases hs : s id with
      | none =>
        rw [show applyOp s (StoreOp.fail id msg now) =
              failJob s id msg now from rfl,
            failJob_absent s id msg now hs, hs] at hj
        exact Option.noConfusion hj
      | some job0 =>
        rw [show applyOp s (StoreOp.fail id msg now) id =
              failJob s id msg now id from rfl,
            failJob_self s id msg now job0 hs] at hj
        cases hj
        exact ⟨job0, rfl, rfl⟩
    · rw [show applyOp s (StoreOp.fail id' msg now) id =
            failJob s id' msg now id from rfl,
          failJob_ne s id' id msg now hk] at hj
      exact ⟨j', hj, rfl⟩
  | evict now ttl =>
    exact ⟨j', evictExpired_lookup s now ttl id j' hj, rfl⟩

/-- Stores used by the C3 counterexample: a job correlated to `wf-1`, then a
second `setWorkflow` call overwriting the correlation with `wf-2`. -/
def c3Store0 : Store := createJob emptyStore "a" "doc.pdf" "application/pdf" 0

/-- The C3 store after the first `setWorkflow`. -/
def c3Store1 : Store := setWorkflow c3Store0 "a" "wf-1" none 1

/-- The C3 store after the second `setWorkflow`. -/
def c3Store2 : Store := setWorkflow c3Store1 "a" "wf-2" none 2

/-- Counterexample to C3 as stated: after `workflowId` has been set to
`wf-1`, a later `setWorkflow` store operation changes it to `wf-2`. -/
theorem claimC3_counterexample :
    (getJob c3Store1 "a").map SigningJob.workflowId = some (some "wf-1") ∧
    (getJob c3Store2 "a").map SigningJob.workflowId = some (some "wf-2") ∧
    ("wf-1" : String) ≠ "wf-2" := by
  refine ⟨by decide, by decide, by decide⟩

/-- C3 as amended: only `setWorkflow` (and `createJob` reusing the id) write
`workflowId`; across any operation sequence containing neither for that id —
`handleSign` calls `setWorkflow` exactly once per job — a `workflowId` once
set keeps its value for as long as the job exists.  (A repeated `setWorkflow`
does overwrite it, as `claimC3_counterexample` shows.) -/
theorem claimC3 :
    ∀ (ops : List StoreOp) (s : Store) (id w : String),
      (∀ j0, s id = some j0 → j0.workflowId = some w) →
      (∀ op ∈ ops, opChangesWfId id op = false) →
      ∀ j', applyOps s ops id = some j' → j'.workflowId = some w := by
  intro ops
  induction ops with
  | nil => exact fun s id w hs _ => hs
  | cons op ops ih =>
    intro s id w hs hops j' hj'
    refine ih (applyOp s op) id w ?_ (fun o ho => hops o (List.mem_cons_of_mem op ho)) j' hj'
    intro j0 h0
    obtain ⟨j1, hj1, heq⟩ :=
      applyOp_wfId_preserved s op id (hops op (List.mem_cons_self op ops)) j0 h0
    rw [heq]
    exact hs j1 hj1

/-- Witness for C3: starting from the store correlated to `wf-1`, a sequence
of `setWorkflowStatus` and `completeJob` calls leaves `workflowId` at
`wf-1`. -/
theorem claimC3_witness :
    (applyOps c3Store1
        [StoreOp.setWfStatus "a" "started" 3,
         StoreOp.complete "a" { bytes := [9], fileName := none, contentType := none } 4] "a").map
      SigningJob.workflowId = some (some "wf-1") := by
  cases happ : applyOps c3Store1
      [StoreOp.setWfStatus "a" "started" 3,
       StoreOp.complete "a" { bytes := [9], fileName := none, contentType := none } 4] "a" with
  | none => exact absurd happ (by decide)
  | some jfin =>
    have hw := claimC3
      [StoreOp.setWfStatus "a" "started" 3,
       StoreOp.complete "a" { bytes := [9], fileName := none, contentType := none } 4]
      c3Store1 "a" "wf-1"
      (fun j0 h0 => by
        have h1 : c3Store1 "a" = some
            { id := "a", fileName := "doc.pdf", fileType := "application/pdf",
              status := SigningJobStatus.pending, createdAt := 0, updatedAt := 1,
              workflowId := some "wf-1", workflowStatus := none,
              signedDocument := none, signedFileName := none,
              signedContentType := none, errorMessage := none } := by decide
        rw [h0] at h1
        cases h1
        rfl)
      (by decide) jfin happ
    simp [hw]

/-- The `DownloadResult` shape returned by `downloadWorkflowDocuments`. -/
structure DownloadResult where
  bytes : List Nat
  fileName : Option String
  contentType : String
deriving Repr, DecidableEq

/-- JavaScript `toLowerCase`, modelled characterwise over the char list. -/
def lowercase (s : String) : String := String.mk (s.data.map Char.toLower)

/-- JavaScript truthiness of an optional string field: absent and empty are
the falsy cases. -/
def jsTruthy : Option String → Bool
  | some s => s != ""
  | none => false

/-- The terminal-failure remote statuses listed in `handleGetStatus`. -/
def workflowFailureStatuses : List String :=
  ["stopped", "refused", "canceled", "failed"]

/-- The `normalizedStatus && [...].includes(normalizedStatus)` test (the
leading truthiness guard makes the empty string fall through). -/
def isFailureStatus : Option String → Bool
  | some ns => ns != "" && workflowFailureStatuses.contains ns
  | none => false

/-- Model of the reconciliation block of `handleGetStatus`
(`src/backend/main.ts` lines 143-169): `remoteStatus` is the fetched
workflow's optional `workflowStatus` field and `dl` the result
`downloadWorkflowDocuments` would return.  The fetch and the download are
assumed to succeed; the catch branch leaves the store unchanged. -/
def pollReconcile (s : Store) (jobId : String) (remoteStatus : Option String)
    (dl : DownloadResult) (now : Int) : Store :=
  match getJob s jobId with
  | none => s
  | some job =>
    if job.status = SigningJobStatus.pending ∧ jsTruthy job.workflowId = true then
      let s1 := match remoteStatus with
        | some ws => if ws = "" then s else setWorkflowStatus s jobId ws now
        | none => s
      if remoteStatus.map lowercase = some "finished" then
        completeJob s1 jobId
          { bytes := dl.bytes, fileName := dl.fileName,
            contentType := some dl.contentType } now
      else if isFailureStatus (remoteStatus.map lowercase) = true then
        failJob s1 jobId ("Workflow " ++ remoteStatus.getD "undefined") now
      else s1
    else s

theorem pollReconcile_finished (s : Store) (id : String) (job : SigningJob)
    (dl : DownloadResult) (now : Int) (rs : String)
    (h : getJob s id = some job) (hp : job.status = SigningJobStatus.pending)
    (hw : jsTruthy job.workflowId = true)
    (hfin : lowercase rs = "finished") :
    pollReconcile s id (some rs) dl now =
      completeJob (setWorkflowStatus s id rs now) id
        { bytes := dl.bytes, fileName := dl.fileName,
          contentType := some dl.contentType } now := by
  have hne : rs ≠ "" := by
    intro h0
    rw [h0] at hfin
    exact absurd hfin (by decide)
  unfold pollReconcile
  simp only [getJob] at h
  simp only [getJob, h]
  rw [if_pos ⟨hp, hw⟩]
  simp only [Option.map_some', hfin, if_neg hne]
  exact if_pos trivial

theorem pollReconcile_failure (s : Store) (id : String) (job : SigningJob)
    (dl : DownloadResult) (now : Int) (rs : String)
    (h : getJob s id = some job) (hp : job.status = SigningJobStatus.pending)
    (hw : jsTruthy job.workflowId = true)
    (hfail : lowercase rs ∈ workflowFailureStatuses) :
    pollReconcile s id (some rs) dl now =
      failJob (setWorkflowStatus s id rs now) id ("Workflow " ++ rs) now := by
  have hne : rs ≠ "" := by
    intro h0
    rw [h0] at hfail
    exact absurd hfail (by decide)
  have hlne : lowercase rs ≠ "" := by
    intro h0
    rw [h0] at hfail
    exact absurd hfail (by decide)
  have hnfin : ¬ (some (lowercase rs) = some "finished") := by
    intro h0
    rw [Option.some.inj h0] at hfail
    exact absurd hfail (by decide)
  have hisf : isFailureStatus (some (lowercase rs)) = true := by
    simp [isFailureStatus, hlne, hfail]
  unfold pollReconcile
  simp only [getJob] at h
  simp only [getJob, h]
  rw [if_pos ⟨hp, hw⟩]
  simp only [Option.map_some', if_neg hne, if_neg hnfin, hisf, Option.getD_some]
  exact if_pos trivial

theorem pollReconcile_other (s : Store) (id : String) (job : SigningJob)
    (dl : DownloadResult) (now : Int) (rs : String)
    (h : getJob s id = some job) (hp : job.status = SigningJobStatus.pending)
    (hw : jsTruthy job.workflowId = true) (hne : rs ≠ "")
    (hnfin : lowercase rs ≠ "finished")
    (hnfail : lowercase rs ∉ workflowFailureStatuses) :
    pollReconcile s id (some rs) dl now = setWorkflowStatus s id rs now := by
  have hnfin2 : ¬ (some (lowercase rs) = some "finished") := by
    intro h0
    exact hnfin (Option.some.inj h0)
  have hisf : isFailureStatus (some (lowercase rs)) = false := by
    simp [isFailureStatus, hnfail]
  unfold pollReconcile
  simp only [getJob] at h
  simp only [getJob, h]
  rw [if_pos ⟨hp, hw⟩]
  simp only [Option.map_some', if_neg hne, if_neg hnfin2, hisf]
  exact if_neg (by simp)

theorem pollReconcile_stale (s : Store) (id : String) (job : SigningJob)
    (dl : DownloadResult) (now : Int)
    (h : getJob s id = some job) (hp : job.status = SigningJobStatus.pending)
    (hw : jsTruthy job.workflowId = true) :
    pollReconcile s id none dl now = s ∧
    pollReconcile s id (some "") dl now = s := by
  constructor
  · unfold pollReconcile
    simp only [getJob] at h
    simp only [getJob, h]
    rw [if_pos ⟨hp, hw⟩]
    simp [isFailureStatus]
  · unfold pollReconcile
    simp only [getJob] at h
    simp only [getJob, h]
    rw [if_pos ⟨hp, hw⟩]
    simp [isFailureStatus, lowercase]

/-- Store for the C4 counterexample and witness: a pending job correlated to
workflow `wf-1` whose last observed remote status is `started`. -/
def c4Store : Store :=
  setWorkflow (createJob emptyStore "a" "doc.pdf" "application/pdf" 0)
    "a" "wf-1" (some "started") 1

/-- The job held by `c4Store`. -/
def c4Job : SigningJob :=
  { id := "a", fileName := "doc.pdf", fileType := "application/pdf",
    status := SigningJobStatus.pending, createdAt := 0, updatedAt := 1,
    workflowId := some "wf-1", workflowStatus := some "started",
    signedDocument := none, signedFileName := none,
    signedContentType := none, errorMessage := none }

/-- A download result used by the C4 theorems. -/
def c4Dl : DownloadResult :=
  { bytes := [7, 7], fileName := none, contentType := "application/pdf" }

/-- Counterexample to C4 as stated: the remote status `""` lowercases neither
to `finished` nor to a failure status, so by the claim the job should stay
pending *with `workflowStatus` refreshed* (to `""`); in the code the
truthiness guard `if (workflow.workflowStatus)` skips the refresh, so
`workflowStatus` remains the stale `started` (≠ `""`). -/
theorem claimC4_counterexample :
    (getJob (pollReconcile c4Store "a" (some "") c4Dl 9) "a").map
        SigningJob.workflowStatus = some (some "started") ∧
    (getJob (pollReconcile c4Store "a" (some "") c4Dl 9) "a").map
        SigningJob.status = some SigningJobStatus.pending ∧
    ("started" : String) ≠ "" := by
  refine ⟨by decide, by decide, by decide⟩

/-- C4 as amended: on a status poll for a pending job with a (truthy)
workflowId, (1) a remote status lowercasing to `finished` completes the job
with the downloaded bytes, content type, and filename (store-derived default
when the download carries none); (2) a remote status lowercasing into
{stopped, refused, canceled, failed} errors the job with a message naming the
remote status; (3) any other *non-empty* remote status leaves the job pending
with exactly `workflowStatus` refreshed and `updatedAt` bumped; (4) an absent
or empty remote status leaves the store unchanged — the `workflowStatus`
refresh the original claim promises does not happen for `""`
(`claimC4_counterexample`). -/
theorem claimC4 :
    (∀ (s : Store) (id : String) (job : SigningJob) (dl : DownloadResult)
        (now : Int) (rs : String),
      getJob s id = some job → job.status = SigningJobStatus.pending →
      jsTruthy job.workflowId = true → lowercase rs = "finished" →
      (getJob (pollReconcile s id (some rs) dl now) id).map SigningJob.status =
          some SigningJobStatus.completed ∧
      (getJob (pollReconcile s id (some rs) dl now) id).map SigningJob.signedDocument =
          some (some dl.bytes) ∧
      (getJob (pollReconcile s id (some rs) dl now) id).map SigningJob.signedFileName =
          some (some (dl.fileName.getD (defaultSignedName job.fileName))) ∧
      (getJob (pollReconcile s id (some rs) dl now) id).map SigningJob.signedContentType =
          some (some dl.contentType)) ∧
    (∀ (s : Store) (id : String) (job : SigningJob) (dl : DownloadResult)
        (now : Int) (rs : String),
      getJob s id = some job → job.status = SigningJobStatus.pending →
      jsTruthy job.workflowId = true → lowercase rs ∈ workflowFailureStatuses →
      (getJob (pollReconcile s id (some rs) dl now) id).map SigningJob.status =
          some SigningJobStatus.error ∧
      (getJob (pollReconcile s id (some rs) dl now) id).map SigningJob.errorMessage =
          some (some ("Workflow " ++ rs))) ∧
    (∀ (s : Store) (id : String) (job : SigningJob) (dl : DownloadResult)
        (now : Int) (rs : String),
      getJob s id = some job → job.status = SigningJobStatus.pending →
      jsTruthy job.workflowId = true → rs ≠ "" → lowercase rs ≠ "finished" →
      lowercase rs ∉ workflowFailureStatuses →
      getJob (pollReconcile s id (some rs) dl now) id =
        some { job with workflowStatus := some rs, updatedAt := now }) ∧
    (∀ (s : Store) (id : String) (job : SigningJob) (dl : DownloadResult)
        (now : Int),
      getJob s id = some job → job.status = SigningJobStatus.pending →
      jsTruthy job.workflowId = true →
      pollReconcile s id none dl now = s ∧
      pollReconcile s id (some "") dl now = s) := by
  refine ⟨?_, ?_, ?_, ?_⟩
  · intro s id job dl now rs h hp hw hfin
    rw [pollReconcile_finished s id job dl now rs h hp hw hfin]
    have h1 : setWorkflowStatus s id rs now id =
        some { job with workflowStatus := some rs, updatedAt := now } :=
      setWorkflowStatus_self s id rs now job h
    have h2 := completeJob_self (setWorkflowStatus s id rs now) id
      { bytes := dl.bytes, fileName := dl.fileName, contentType := some dl.contentType }
      now _ h1
    simp only [getJob, h2]
    exact ⟨rfl, rfl, rfl, rfl⟩
  · intro s id job dl now rs h hp hw hfail
    rw [pollReconcile_failure s id job dl now rs h hp hw hfail]
    have h1 : setWorkflowStatus s id rs now id =
        some { job with workflowStatus := some rs, updatedAt := now } :=
      setWorkflowStatus_self s id rs now job h
    have h2 := failJob_self (setWorkflowStatus s id rs now) id
      ("Workflow " ++ rs) now _ h1
    simp only [getJob, h2]
    exact ⟨rfl, rfl⟩
  · intro s id job dl now rs h hp hw hne hnfin hnfail
    rw [pollReconcile_other s id job dl now rs h hp hw hne hnfin hnfail]
    exact setWorkflowStatus_self s id rs now job h
  · intro s id job dl now h hp hw
    exact pollReconcile_stale s id job dl now h hp hw

/-- Witness for C4: all four branches instantiated on `c4Store` — remote
`Finished` completes the job, remote `REFUSED` errors it with a message
naming `REFUSED`, remote `signing` only refreshes `workflowStatus`, and an
absent remote status leaves the store untouched. -/
theorem claimC4_witness :
    (getJob (pollReconcile c4Store "a" (some "Finished") c4Dl 9) "a").map
        SigningJob.status = some SigningJobStatus.completed ∧
    (getJob (pollReconcile c4Store "a" (some "REFUSED") c4Dl 9) "a").map
        SigningJob.errorMessage = some (some ("Workflow " ++ "REFUSED")) ∧
    getJob (pollReconcile c4Store "a" (some "signing") c4Dl 9) "a" =
      some { c4Job with workflowStatus := some "signing", updatedAt := 9 } ∧
    pollReconcile c4Store "a" none c4Dl 9 = c4Store := by
  refine ⟨?_, ?_, ?_, ?_⟩
  · exact (claimC4.1 c4Store "a" c4Job c4Dl 9 "Finished"
      (by decide) (by decide) (by decide) (by decide)).1
  · exact (claimC4.2.1 c4Store "a" c4Job c4Dl 9 "REFUSED"
      (by decide) (by decide) (by decide) (by decide)).2
  · exact claimC4.2.2.1 c4Store "a" c4Job c4Dl 9 "signing"
      (by decide) (by decide) (by decide) (by decide) (by decide) (by decide)
  · exact (claimC4.2.2.2 c4Store "a" c4Job c4Dl 9
      (by decide) (by decide) (by decide)).1

/-- JavaScript `a || b` on strings: the empty string is falsy. -/
def jsOr (a b : String) : String := if a = "" then b else a

/-- JavaScript `a || b` where `a` is an optional string. -/
def jsOrOpt (a : Option String) (b : String) : String :=
  match a with
  | some x => jsOr x b
  | none => b

/-- The observable parts of a `handleDownload` response: HTTP status, body
bytes (none for the JSON error bodies), `Content-Type`, and the attachment
filename from `Content-Disposition`. -/
structure HttpFileResponse where
  status : Nat
  bodyBytes : Option (List Nat)
  contentType : String
  attachmentFileName : Option String
deriving Repr, DecidableEq

/-- A JSON error response (`jsonResponse` carrying an error payload). -/
def jsonErrorResponse (status : Nat) : HttpFileResponse :=
  { status := status, bodyBytes := none, contentType := "application/json",
    attachmentFileName := none }

/-- Model of `handleDownload` (`src/backend/main.ts` lines 184-213).  The
redundant second `!signedBytes` check of the source is kept as the inner
match. -/
def handleDownload (s : Store) (jobId : String) : HttpFileResponse :=
  match getJob s jobId with
  | none => jsonErrorResponse 404
  | some job =>
    if job.status ≠ SigningJobStatus.completed ∨ job.signedDocument = none then
      jsonErrorResponse 409
    else
      match job.signedDocument with
      | none => jsonErrorResponse 409
      | some signedBytes =>
        { status := 200,
          bodyBytes := some signedBytes,
          contentType := jsOrOpt job.signedContentType
            (jsOr job.fileType "application/pdf"),
          attachmentFileName := some (job.signedFileName.getD job.fileName) }

/-- C8: `handleDownload` returns the stored bytes verbatim, with the recorded
content type and signed filename, exactly when the job exists, is completed
and holds an artifact; an unknown id yields 404 and a known-but-uncompleted
job yields 409 with no bytes. -/
theorem claimC8 :
    (∀ (s : Store) (id : String), getJob s id = none →
      handleDownload s id = jsonErrorResponse 404) ∧
    (∀ (s : Store) (id : String) (job : SigningJob),
      getJob s id = some job → job.status ≠ SigningJobStatus.completed →
      handleDownload s id = jsonErrorResponse 409) ∧
    (∀ (s : Store) (id : String) (job : SigningJob) (bytes : List Nat),
      getJob s id = some job → job.status = SigningJobStatus.completed →
      job.signedDocument = some bytes →
      (handleDownload s id).status = 200 ∧
      (handleDownload s id).bodyBytes = some bytes ∧
      (handleDownload s id).attachmentFileName =
        some (job.signedFileName.getD job.fileName) ∧
      (∀ ct, job.signedContentType = some ct → ct ≠ "" →
        (handleDownload s id).contentType = ct)) ∧
    (∀ (s : Store) (id : String), (handleDownload s id).bodyBytes ≠ none →
      ∃ job bytes, getJob s id = some job ∧
        job.status = SigningJobStatus.completed ∧
        job.signedDocument = some bytes ∧
        (handleDownload s id).bodyBytes = some bytes) := by
  refine ⟨?_, ?_, ?_, ?_⟩
  · intro s id h
    simp only [handleDownload, h]
  · intro s id job h hnc
    simp only [handleDownload, h]
    rw [if_pos (Or.inl hnc)]
  · intro s id job bytes h hc hd
    have hcond : ¬(job.status ≠ SigningJobStatus.completed ∨
        job.signedDocument = none) := by
      simp [hc, hd]
    simp only [handleDownload, h]
    rw [if_neg hcond]
    simp only [hd]
    refine ⟨trivial, trivial, trivial, ?_⟩
    intro ct hct hctne
    simp only [hct, jsOrOpt, jsOr, if_neg hctne]
  · intro s id hne
    cases hj : getJob s id with
    | none =>
      exfalso
      apply hne
      simp [handleDownload, hj, jsonErrorResponse]
    | some job =>
      by_cases hif : job.status ≠ SigningJobStatus.completed ∨
          job.signedDocument = none
      · exfalso
        apply hne
        simp only [handleDownload, hj, if_pos hif]
        rfl
      · push_neg at hif
        cases hd : job.signedDocument with
        | none => exact absurd hd hif.2
        | some bytes =>
          have hcond : ¬(job.status ≠ SigningJobStatus.completed ∨
              job.signedDocument = none) := by
            simp [hif.1, hd]
          refine ⟨job, bytes, rfl, hif.1, hd, ?_⟩
          simp only [handleDownload, hj]
          rw [if_neg hcond]
          simp only [hd]

/-- Completed job with a stored artifact, for the C8 witness. -/
def c8Done : SigningJob :=
  { id := "d", fileName := "doc.pdf", fileType := "application/pdf",
    status := SigningJobStatus.completed, createdAt := 0, updatedAt := 2,
    workflowId := some "wf-1", workflowStatus := some "finished",
    signedDocument := some [5, 6], signedFileName := some "doc-signed.pdf",
    signedContentType := some "application/zip", errorMessage := none }

/-- Pending job without artifact, for the C8 witness. -/
def c8Pending : SigningJob :=
  { id := "p", fileName := "p.pdf", fileType := "application/pdf",
    status := SigningJobStatus.pending, createdAt := 0, updatedAt := 0,
    workflowId := none, workflowStatus := none, signedDocument := none,
    signedFileName := none, signedContentType := none, errorMessage := none }

/-- Two-job store of the C8 witness. -/
def c8Store : Store := updateJob (updateJob emptyStore "d" c8Done) "p" c8Pending

/-- Witness for C8: unknown id → 404; pending job → 409 without bytes;
completed job → 200 with the stored bytes, recorded content type and signed
filename; and a response carrying bytes implies a completed job. -/
theorem claimC8_witness :
    handleDownload c8Store "zzz" = jsonErrorResponse 404 ∧
    handleDownload c8Store "p" = jsonErrorResponse 409 ∧
    ((handleDownload c8Store "d").status = 200 ∧
     (handleDownload c8Store "d").bodyBytes = some [5, 6] ∧
     (handleDownload c8Store "d").attachmentFileName = some "doc-signed.pdf" ∧
     (handleDownload c8Store "d").contentType = "application/zip") ∧
    getJob c8Store "d" ≠ none := by
  refine ⟨?_, ?_, ?_, ?_⟩
  · exact claimC8.1 c8Store "zzz" (by decide)
  · exact claimC8.2.1 c8Store "p" c8Pending (by decide) (by decide)
  · obtain ⟨h1, h2, h3, h4⟩ := claimC8.2.2.1 c8Store "d" c8Done [5, 6]
      (by decide) (by decide) (by decide)
    exact ⟨h1, h2, h3, h4 "application/zip" (by decide) (by decide)⟩
  · obtain ⟨job, bytes, hj, _, _, _⟩ := claimC8.2.2.2 c8Store "d" (by decide)
    rw [hj]
    exact fun hx => Option.noConfusion hx

/-- The job summary `handleSign` returns on its success path
(`src/backend/main.ts` lines 119-125). -/
structure SignSuccessResponse where
  jobId : String
  status : SigningJobStatus
  workflowId : String
  workflowStatus : String
  fileName : String
deriving Repr, DecidableEq

/-- Model of the success-path response construction of `handleSign`:
`createdWfStatus` is `workflow.workflowStatus` from the create-workflow call
and `startedWfStatus` is `startedWorkflow.workflowStatus` from the
start-workflow call; the resolved status is
`startedWorkflow.workflowStatus ?? workflow.workflowStatus ?? "started"`. -/
def signSuccessResponse (job : SigningJob) (workflowId : String)
    (createdWfStatus startedWfStatus : Option String) : SignSuccessResponse :=
  { jobId := job.id
    status := job.status
    workflowId := workflowId
    workflowStatus := startedWfStatus.getD (createdWfStatus.getD "started")
    fileName := job.fileName }

/-- C9: the responded workflow status is the start-workflow status when
present (nullish coalescing, so even the empty string counts as present),
else the create-workflow status when present, else the literal `started`. -/
theorem claimC9 :
    (∀ (job : SigningJob) (wid : String) (cs : Option String) (v : String),
      (signSuccessResponse job wid cs (some v)).workflowStatus = v) ∧
    (∀ (job : SigningJob) (wid : String) (v : String),
      (signSuccessResponse job wid (some v) none).workflowStatus = v) ∧
    (∀ (job : SigningJob) (wid : String),
      (signSuccessResponse job wid none none).workflowStatus = "started") := by
  exact ⟨fun _ _ _ _ => rfl, fun _ _ _ => rfl, fun _ _ => rfl⟩

/-- Whether the first list is an initial segment of the second. -/
def listPrefixB : List Char → List Char → Bool
  | [], _ => true
  | _ :: _, [] => false
  | a :: as, b :: bs => a == b && listPrefixB as bs

/-- Whether `pat` occurs contiguously inside the second list. -/
def listInfixB (pat : List Char) : List Char → Bool
  | [] => listPrefixB pat []
  | c :: rest => listPrefixB pat (c :: rest) || listInfixB pat rest

/-- JavaScript `String.prototype.includes`. -/
def strIncludes (s pat : String) : Bool := listInfixB pat.data s.data

/-- JavaScript `String.prototype.endsWith`, via reversed char lists. -/
def strEndsWith (s tail : String) : Bool :=
  listPrefixB tail.data.reverse s.data.reverse

/-- JavaScript `String.prototype.trim`, dropping whitespace on both ends. -/
def trimStr (s : String) : String :=
  String.mk (((s.data.dropWhile Char.isWhitespace).reverse.dropWhile
    Char.isWhitespace).reverse)

/-- `getTextValue` from `src/backend/main.ts`: non-string (absent) form
entries and entries that trim to the empty string become absent. -/
def getTextValue (v : Option String) : Option String :=
  match v with
  | none => none
  | some s =>
    let trimmed := trimStr s
    if trimmed.length > 0 then some trimmed else none

/-- The `name` and `type` of an uploaded `File`. -/
structure UploadFile where
  name : String
  type : String
deriving Repr, DecidableEq

/-- The early-validation rejections of `handleSign`, in source order. -/
inductive SignValidationError where
  | notMultipart
  | missingFile
  | onlyPdfSupported
  | missingSignerEmail
deriving Repr, DecidableEq

/-- Model of the validation prefix of `handleSign`
(`src/backend/main.ts` lines 47-77): content-type check, file presence,
PDF-only check (`file.type && file.type !== "application/pdf" &&
!file.name.toLowerCase().endsWith(".pdf")`), then required signer email. -/
def validateSignRequest (contentTypeHeader : String) (file : Option UploadFile)
    (signerEmailField : Option String) : Option SignValidationError :=
  if ¬ (strIncludes contentTypeHeader "multipart/form-data" = true) then
    some SignValidationError.notMultipart
  else
    match file with
    | none => some SignValidationError.missingFile
    | some f =>
      if f.type ≠ "" ∧ f.type ≠ "application/pdf" ∧
          strEndsWith (lowercase f.name) ".pdf" = false then
        some SignValidationError.onlyPdfSupported
      else
        match getTextValue signerEmailField with
        | none => some SignValidationError.missingSignerEmail
        | some _ => none

/-- C10: the PDF-only rejection fires exactly when the file's MIME type is a
non-empty string other than `application/pdf` and the lowercased name does
not end in `.pdf`; an empty MIME type is never rejected by this check. -/
theorem claimC10 :
    (∀ (hdr : String) (f : UploadFile) (email : Option String),
      strIncludes hdr "multipart/form-data" = true →
      (validateSignRequest hdr (some f) email =
          some SignValidationError.onlyPdfSupported ↔
        (f.type ≠ "" ∧ f.type ≠ "application/pdf" ∧
          strEndsWith (lowercase f.name) ".pdf" = false))) ∧
    (∀ (nm : String) (email : Option String),
      validateSignRequest "multipart/form-data"
          (some { name := nm, type := "" }) email ≠
        some SignValidationError.onlyPdfSupported) := by
  constructor
  · intro hdr f email hinc
    have hval : validateSignRequest hdr (some f) email =
        (if f.type ≠ "" ∧ f.type ≠ "application/pdf" ∧
            strEndsWith (lowercase f.name) ".pdf" = false then
          some SignValidationError.onlyPdfSupported
        else
          match getTextValue email with
          | none => some SignValidationError.missingSignerEmail
          | some _ => none) := by
      unfold validateSignRequest
      rw [if_neg (not_not_intro hinc)]
    rw [hval]
    by_cases hc : f.type ≠ "" ∧ f.type ≠ "application/pdf" ∧
        strEndsWith (lowercase f.name) ".pdf" = false
    · rw [if_pos hc]
      exact ⟨fun _ => hc, fun _ => rfl⟩
    · rw [if_neg hc]
      constructor
      · intro hres
        exfalso
        cases h2 : getTextValue email with
        | none =>
          rw [h2] at hres
          exact SignValidationError.noConfusion (Option.some.inj hres)
        | some t =>
          rw [h2] at hres
          exact Option.noConfusion hres
      · intro hcond
        exact absurd hcond hc
  · intro nm email
    have hval : validateSignRequest "multipart/form-data"
        (some { name := nm, type := "" }) email =
        (if ("" : String) ≠ "" ∧ ("" : String) ≠ "application/pdf" ∧
            strEndsWith (lowercase nm) ".pdf" = false then
          some SignValidationError.onlyPdfSupported
        else
          match getTextValue email with
          | none => some SignValidationError.missingSignerEmail
          | some _ => none) := by
      unfold validateSignRequest
      rw [if_neg (not_not_intro (by decide))]
    rw [hval]
    rw [if_neg (fun hc => hc.1 rfl)]
    cases h2 : getTextValue email with
    | none => decide
    | some t => exact fun hres => Option.noConfusion hres

/-- Witness for C10: a `text/plain` file named `notes.txt` is rejected by the
PDF-only check; a file with empty MIME type is not, whatever its name. -/
theorem claimC10_witness :
    validateSignRequest "multipart/form-data; boundary=x"
        (some { name := "notes.txt", type := "text/plain" }) (some "a@b.c") =
      some SignValidationError.onlyPdfSupported ∧
    validateSignRequest "multipart/form-data"
        (some { name := "scan.bin", type := "" }) (some "a@b.c") ≠
      some SignValidationError.onlyPdfSupported := by
  constructor
  · exact (claimC10.1 "multipart/form-data; boundary=x"
      { name := "notes.txt", type := "text/plain" } (some "a@b.c")
      (by decide)).mpr ⟨by decide, by decide, by decide⟩
  · exact claimC10.2 "scan.bin" (some "a@b.c")
